import Mathlib

/-!
Shallow embedding of the two interpreters in the `mini-languages` repository:
`apply-eval.py` (class `ApplyEvalInterpreter` with its `Environment` dict
subclass) and `nanolisp.py` (class `LispInterpreter` with its identical
`Scope` dict subclass).

Python values (s-expressions and evaluation results are the same kind of
object in the source) are modelled by `Value`.  A closure is exactly the
tuple `('lambda', env, params, body)` that `ApplyEvalInterpreter._lambda`
builds, i.e. `Value.tuple [Value.str "lambda", envValue, params, body]`.
The mutable `Environment`/`Scope` objects live in an explicit store
(`PyState.frames`); the plain builtin dict (`self._builtins` resp.
`self._globals`) is `PyState.builtins`, referenced by the `Value.table`
object.  Python exceptions are modelled by `Except PyErr`; evaluation takes
a fuel parameter, and running out of fuel (`PyErr.outOfFuel`) models
non-termination / unbounded recursion of the Python original.
-/

namespace MiniLisp

/-- Names of the routine objects stored in the builtin tables: the bound
methods (`_set`, `_setq`, `_cond`, `_lambda`) and the inline lambdas
(`car`, `cdr`, `quote`, `+`, `-`, `*`, `/`, `equal?`). -/
inductive BName where
  | set | setq | cond | lambdaB | car | cdr | quote
  | add | sub | mul | div | equalQ
  deriving DecidableEq

/-- A Python value as used by the interpreters: ints, bools, strings,
lists, tuples, the routine objects of the builtin table, the builtin dict
itself (`table`), a reference to an `Environment`/`Scope` object in the
store (`env`), the un-invoked bound method `self.make_global_environment`
(`method`, see `ApplyEvalInterpreter.eval`) and Python `None`. -/
inductive Value where
  | int : Int → Value
  | bool : Bool → Value
  | str : String → Value
  | list : List Value → Value
  | tuple : List Value → Value
  | builtin : BName → Value
  | table : Value
  | env : Nat → Value
  | method : Value
  | none : Value

/-- Python exceptions raised by the interpreted code.  `outOfFuel` is the
embedding's stand-in for a Python execution that does not terminate within
the given fuel. -/
inductive PyErr where
  | outOfFuel
  | keyError
  | typeError
  | indexError
  | attributeError
  | assertionError
  | valueError
  | zeroDivisionError
  deriving DecidableEq

mutual

/-- Python `==` on the modelled values.  `True == 1` and `False == 0` as in
Python; lists and tuples compare element-wise but a list never equals a
tuple.  Environment objects are compared by reference (no interpreted
program in the claims compares environment objects). -/
def pyEq : Value → Value → Bool
  | .int a, .int b => a == b
  | .int a, .bool b => a == (if b then 1 else 0)
  | .bool a, .int b => (if a then (1 : Int) else 0) == b
  | .bool a, .bool b => a == b
  | .str a, .str b => a == b
  | .list a, .list b => pyEqList a b
  | .tuple a, .tuple b => pyEqList a b
  | .builtin a, .builtin b => a == b
  | .table, .table => true
  | .env a, .env b => a == b
  | .method, .method => true
  | .none, .none => true
  | _, _ => false

def pyEqList : List Value → List Value → Bool
  | [], [] => true
  | a :: as, b :: bs => pyEq a b && pyEqList as bs
  | _, _ => false

end

mutual

/-- Whether a Python value is hashable (usable as a dict key): lists,
dicts (environments, the builtin table) are not; tuples are hashable iff
their elements are. -/
def hashable : Value → Bool
  | .int _ => true
  | .bool _ => true
  | .str _ => true
  | .list _ => false
  | .tuple l => hashableList l
  | .builtin _ => true
  | .table => false
  | .env _ => false
  | .method => true
  | .none => true

def hashableList : List Value → Bool
  | [] => true
  | a :: as => hashable a && hashableList as

end

/-- One `Environment`/`Scope` object: its own dict entries plus the
`_parent` attribute (any Python value; `Value.table` for the global
environment, `Value.env` for call frames). -/
structure Frame where
  entries : List (Value × Value)
  parent : Value

/-- The heap of `Environment`/`Scope` objects plus the single builtin dict
(`self._builtins` / `self._globals`) which `Value.table` refers to. -/
structure PyState where
  frames : List Frame
  builtins : List (Value × Value)

def frameAt (st : PyState) (r : Nat) : Frame :=
  st.frames.getD r ⟨[], .none⟩

def pushFrame (st : PyState) (fr : Frame) : PyState :=
  { st with frames := st.frames ++ [fr] }

def modifyFrame (st : PyState) (r : Nat) (f : Frame → Frame) : PyState :=
  { st with frames := st.frames.set r (f (frameAt st r)) }

/-- Python dict lookup over an entry list (keys compared with `==`). -/
def findEntry : List (Value × Value) → Value → Option Value
  | [], _ => Option.none
  | (k0, v0) :: rest, k => if pyEq k0 k then some v0 else findEntry rest k

/-- Python dict item assignment: replace the value of an existing equal key
(keeping the original key object) or append a new entry. -/
def setEntry : List (Value × Value) → Value → Value → List (Value × Value)
  | [], k, v => [(k, v)]
  | (k0, v0) :: rest, k, v =>
      if pyEq k0 k then (k0, v) :: rest else (k0, v0) :: setEntry rest k v

/-- Python truthiness.  A dict (subclass) is truthy iff it is non-empty;
this is what `elif self._parent:` in `Environment.__getitem__` tests. -/
def truthyV (st : PyState) : Value → Bool
  | .int n => n != 0
  | .bool b => b
  | .str s => s != ""
  | .list l => !l.isEmpty
  | .tuple l => !l.isEmpty
  | .builtin _ => true
  | .table => !st.builtins.isEmpty
  | .env r => !(frameAt st r).entries.isEmpty
  | .method => true
  | .none => false

/-- One step of `Environment.__getitem__` / plain dict `__getitem__`.
On an `Environment` (`Value.env`): try the local dict, else delegate to
the parent iff the parent is *truthy* (`elif self._parent:`), else
`KeyError`.  On the builtin dict (`Value.table`): plain lookup.
Unhashable keys raise `TypeError` (from `super().__contains__`), and
subscripting a non-dict raises `TypeError`. -/
def lookupStep (st : PyState) (rec : Value → Value → Except PyErr Value)
    (envv key : Value) : Except PyErr Value :=
  match envv with
  | .env r =>
      if hashable key then
        match findEntry (frameAt st r).entries key with
        | some v => .ok v
        | Option.none =>
            if truthyV st (frameAt st r).parent then
              rec (frameAt st r).parent key
            else throw .keyError
      else throw .typeError
  | .table =>
      if hashable key then
        match findEntry st.builtins key with
        | some v => .ok v
        | Option.none => throw .keyError
      else throw .typeError
  | _ => throw .typeError

/-- The chain walk of `Environment.__getitem__`, with explicit fuel
(`fuel 0` models a walk that never ends, which is unreachable for the
acyclic stores the interpreters build). -/
def lookupGo (st : PyState) : Nat → Value → Value → Except PyErr Value
  | 0, _, _ => throw .outOfFuel
  | fuel + 1, envv, key => lookupStep st (lookupGo st fuel) envv key

/-- `env[key]` with a fuel bound that suffices for every acyclic chain
(each hop visits a distinct frame, plus possibly the builtin table). -/
def envGetItem (st : PyState) (envv key : Value) : Except PyErr Value :=
  lookupGo st (st.frames.length + 2) envv key

/-- `env.get(key, default)`: `Environment.get` (and plain `dict.get`)
returns `default` exactly on `KeyError` and lets every other exception
propagate.  On objects with no `get` attribute (the un-invoked
`make_global_environment` method of `ApplyEvalInterpreter.eval`, lists,
ints, ...) attribute access raises `AttributeError`. -/
def envGetD (st : PyState) (envv key dflt : Value) : Except PyErr Value :=
  match envv with
  | .env _ =>
      match envGetItem st envv key with
      | .ok v => .ok v
      | .error .keyError => .ok dflt
      | .error e => .error e
  | .table =>
      match envGetItem st envv key with
      | .ok v => .ok v
      | .error .keyError => .ok dflt
      | .error e => .error e
  | _ => throw .attributeError

/-- `env[key] = v`: plain dict item assignment, always on the local dict
(`Environment` does not override `__setitem__`).  Assigning into the
builtin dict object mutates `PyState.builtins`.  Unhashable keys raise
`TypeError`, as does item assignment on a non-dict. -/
def envSetItem (st : PyState) (envv key v : Value) : Except PyErr PyState :=
  match envv with
  | .env r =>
      if hashable key then
        .ok (modifyFrame st r (fun fr => ⟨setEntry fr.entries key v, fr.parent⟩))
      else throw .typeError
  | .table =>
      if hashable key then .ok { st with builtins := setEntry st.builtins key v }
      else throw .typeError
  | _ => throw .typeError

/-- Python list subscript with a non-negative literal index, as used by the
source (`expr[0]`, `definition[3]`, ...): lists, tuples and strings are
subscriptable (a string yields a one-character string), out-of-range raises
`IndexError`, anything else raises `TypeError`. -/
def pyIndexV : Value → Nat → Except PyErr Value
  | .list l, i =>
      match l.get? i with
      | some v => .ok v
      | Option.none => throw .indexError
  | .tuple l, i =>
      match l.get? i with
      | some v => .ok v
      | Option.none => throw .indexError
  | .str s, i =>
      match s.data.get? i with
      | some c => .ok (.str c.toString)
      | Option.none => throw .indexError
  | _, _ => throw .typeError

/-- Subscript on the evaluator-internal Python list of operands
(`sexpression[0]`, `args[1]`). -/
def listIdx (l : List Value) (i : Nat) : Except PyErr Value :=
  match l.get? i with
  | some v => .ok v
  | Option.none => throw .indexError

/-- Python slice `x[1:]`: defined (and never raising) on lists, tuples and
strings — in particular `[][1:]` is `[]` — and `TypeError` otherwise. -/
def pySlice1 : Value → Except PyErr Value
  | .list l => .ok (.list (l.drop 1))
  | .tuple l => .ok (.tuple (l.drop 1))
  | .str s => .ok (.str (String.mk (s.data.drop 1)))
  | _ => throw .typeError

/-- Iterating a Python value, as `zip(definition[2], args)` does with the
parameter list: lists and tuples yield their elements, a string yields its
characters, anything else raises `TypeError`. -/
def toIter : Value → Except PyErr (List Value)
  | .list l => .ok l
  | .tuple l => .ok l
  | .str s => .ok (s.data.map (fun c => .str c.toString))
  | _ => throw .typeError

/-- `dict(pairs)`: build a dict from key/value pairs left to right (later
duplicates overwrite), raising `TypeError` on an unhashable key. -/
def dictOf (pairs : List (Value × Value)) : Except PyErr (List (Value × Value)) :=
  pairs.foldlM
    (fun es kv =>
      if hashable kv.1 then .ok (setEntry es kv.1 kv.2) else throw .typeError)
    []

/-- Numbers as Python `int` for arithmetic: bools coerce (`True` is 1). -/
def asInt : Value → Option Int
  | .int n => some n
  | .bool b => some (if b then 1 else 0)
  | _ => Option.none

/-- One step of Python `sum`: `acc + v` where `acc` started at `0`, so only
ints/bools ever add without a `TypeError`. -/
def pyAddNum (a b : Value) : Except PyErr Value :=
  match asInt a, asInt b with
  | some x, some y => .ok (.int (x + y))
  | _, _ => throw .typeError

/-- `sum(expr)` as in the `+` builtin: fold from the start value `0`;
`sum([])` is `0`. -/
def pySum (args : List Value) : Except PyErr Value :=
  args.foldlM pyAddNum (.int 0)

def pySub (a b : Value) : Except PyErr Value :=
  match asInt a, asInt b with
  | some x, some y => .ok (.int (x - y))
  | _, _ => throw .typeError

def repeatList (l : List Value) (n : Int) : List Value :=
  (List.replicate n.toNat l).flatten

/-- Python `*` (`operator.mul`): integer product (bools coerced), sequence
repetition for int×str, int×list, int×tuple (and symmetrically), otherwise
`TypeError`. -/
def pyMul (a b : Value) : Except PyErr Value :=
  match asInt a, asInt b with
  | some x, some y => .ok (.int (x * y))
  | some x, Option.none =>
      match b with
      | .str s => .ok (.str (String.join (List.replicate x.toNat s)))
      | .list l => .ok (.list (repeatList l x))
      | .tuple l => .ok (.tuple (repeatList l x))
      | _ => throw .typeError
  | Option.none, some y =>
      match a with
      | .str s => .ok (.str (String.join (List.replicate y.toNat s)))
      | .list l => .ok (.list (repeatList l y))
      | .tuple l => .ok (.tuple (repeatList l y))
      | _ => throw .typeError
  | _, _ => throw .typeError

/-- Python 2 `operator.div` on ints: floor division, `ZeroDivisionError`
on a zero divisor, `TypeError` on non-numbers. -/
def pyDiv (a b : Value) : Except PyErr Value :=
  match asInt a, asInt b with
  | some x, some y =>
      if y == 0 then throw .zeroDivisionError else .ok (.int (Int.fdiv x y))
  | _, _ => throw .typeError

/-- Python 2 `reduce(f, args)` with no initializer: `TypeError` on an empty
sequence, otherwise a left fold starting from the first element (a single
element is returned unchanged, with no type check). -/
def pyReduce (f : Value → Value → Except PyErr Value) :
    List Value → Except PyErr Value
  | [] => throw .typeError
  | v :: rest => rest.foldlM f v

/-- The evaluator function threaded through the step helpers: at fuel `n+1`
the helpers below are instantiated with `evalA n` (resp. `evalN n`), which
models the recursive `self._eval` / `self.eval` calls of the source. -/
abbrev Evaluator := PyState → Value → Value → Except PyErr (Value × PyState)

/-- `map(lambda n: self._eval(n, env), args)`: evaluate the operand
expressions left to right, threading the store. -/
def evalArgsStep (E : Evaluator) :
    PyState → Value → List Value → Except PyErr (List Value × PyState)
  | st, _, [] => .ok ([], st)
  | st, envv, e :: rest => do
      let (v, st1) ← E st envv e
      let (vs, st2) ← evalArgsStep E st1 envv rest
      .ok (v :: vs, st2)

/-- `for condition, effect in sexpression:` unpacking of one `cond` pair:
exactly-two-element iterables unpack, otherwise `ValueError` (wrong count)
or `TypeError` (not iterable). -/
def unpack2 (v : Value) : Except PyErr (Value × Value) := do
  let l ← toIter v
  match l with
  | [a, b] => .ok (a, b)
  | _ => throw .valueError

/-- `_cond` (identical in both interpreters): evaluate each condition in
order; on the first truthy one evaluate and return its paired result; if
the loop completes, return `False`. -/
def condStep (E : Evaluator) :
    PyState → Value → List Value → Except PyErr (Value × PyState)
  | st, _, [] => .ok (.bool false, st)
  | st, envv, item :: rest => do
      let (c, r) ← unpack2 item
      let (cv, st1) ← E st envv c
      if truthyV st1 cv then E st1 envv r
      else condStep E st1 envv rest

/-- The builtins of `ApplyEvalInterpreter`, dispatched by name.
`_set` binds `sexpression[1]` (its already-evaluated second operand, since
`'set'` is not in `self._lazy`) to key `sexpression[0]` and returns
`sexpression[1]`.  `_setq` (lazy) evaluates its second operand via
`self.eval`, binds the result, and returns the unevaluated operand.
`_lambda` (lazy) builds the tuple `('lambda', env, params, body)`. -/
def runBuiltinA (E : Evaluator) (st : PyState) (envv : Value) :
    BName → List Value → Except PyErr (Value × PyState)
  | .set, args => do
      let v ← listIdx args 1
      let k ← listIdx args 0
      let st1 ← envSetItem st envv k v
      .ok (v, st1)
  | .setq, args => do
      let ex ← listIdx args 1
      let (v, st1) ← E st envv ex
      let k ← listIdx args 0
      let st2 ← envSetItem st1 envv k v
      .ok (ex, st2)
  | .cond, args => condStep E st envv args
  | .lambdaB, args => do
      let ps ← listIdx args 0
      let bd ← listIdx args 1
      .ok (.tuple [.str "lambda", envv, ps, bd], st)
  | .car, args => do
      let x ← listIdx args 0
      let v ← pyIndexV x 0
      .ok (v, st)
  | .cdr, args => do
      let x ← listIdx args 0
      let v ← pySlice1 x
      .ok (v, st)
  | .quote, args => do
      let x ← listIdx args 0
      .ok (x, st)
  | .add, args => do
      let v ← pySum args
      .ok (v, st)
  | .sub, args => do
      let v ← pyReduce pySub args
      .ok (v, st)
  | .mul, args => do
      let v ← pyReduce pyMul args
      .ok (v, st)
  | .div, args => do
      let v ← pyReduce pyDiv args
      .ok (v, st)
  | .equalQ, args => do
      let a ← listIdx args 0
      let b ← listIdx args 1
      .ok (.bool (pyEq a b), st)

/-- `inspect.isroutine` on a modelled value: true exactly for function /
bound-method objects. -/
def isRoutine : Value → Bool
  | .builtin _ => true
  | .method => true
  | _ => false

/-- `ApplyEvalInterpreter._apply(fn, args, env)`.
(1) a routine in head position is called directly; (2) if `env.get(fn)` is
a routine, `env[fn](args, env)` is called; (3) otherwise
`definition = env[fn]` must satisfy `definition[0] == 'lambda'` (assert),
and a *new* `Environment` is created whose parent is `definition[1]` — the
environment captured at lambda-creation time — populated by
`dict(zip(definition[2], args))` (silent truncation to the shorter of the
two sequences), and `definition[3]` is evaluated there. -/
def applyStepA (E : Evaluator) (st : PyState) (envv fn : Value)
    (args : List Value) : Except PyErr (Value × PyState) :=
  match fn with
  | .builtin b => runBuiltinA E st envv b args
  | .method => throw .typeError
  | _ => do
      let v ← envGetD st envv fn .none
      if isRoutine v then do
        let v2 ← envGetItem st envv fn
        match v2 with
        | .builtin b => runBuiltinA E st envv b args
        | _ => throw .typeError
      else do
        let defn ← envGetItem st envv fn
        let hd ← pyIndexV defn 0
        if pyEq hd (.str "lambda") then do
          let parentv ← pyIndexV defn 1
          let r := st.frames.length
          let st1 := pushFrame st ⟨[], parentv⟩
          let ps ← pyIndexV defn 2
          let elems ← toIter ps
          let d ← dictOf (elems.zip args)
          let st2 := modifyFrame st1 r (fun fr => ⟨d, fr.parent⟩)
          let bd ← pyIndexV defn 3
          E st2 (.env r) bd
        else throw .assertionError

/-- Membership of the head in `self._lazy = ['lambda','cond','quote','setq']`
(`in` compares with `==`). -/
def isLazyA (fn : Value) : Bool :=
  pyEq fn (.str "lambda") || pyEq fn (.str "cond") ||
  pyEq fn (.str "quote") || pyEq fn (.str "setq")

/-- One step of `ApplyEvalInterpreter._eval`: a non-list is looked up with
`env.get(sexpression, sexpression)` (self-evaluating when unbound); a list
is split into head and operands, the operands are evaluated first unless
the head is lazy, and `_apply` is invoked. -/
def evalStepA (E : Evaluator) (st : PyState) (envv sexpr : Value) :
    Except PyErr (Value × PyState) :=
  match sexpr with
  | .list l => do
      let fn ← listIdx l 0
      let args := l.drop 1
      if isLazyA fn then applyStepA E st envv fn args
      else do
        let (vs, st1) ← evalArgsStep E st envv args
        applyStepA E st1 envv fn vs
  | a => do
      let v ← envGetD st envv a a
      .ok (v, st)

/-- `ApplyEvalInterpreter._eval` with fuel: every recursive `_eval` /
`_apply` level runs at one unit less. -/
def evalA : Nat → PyState → Value → Value → Except PyErr (Value × PyState)
  | 0, _, _, _ => throw .outOfFuel
  | n + 1, st, envv, sexpr => evalStepA (evalA n) st envv sexpr

/-- `ApplyEvalInterpreter.make_global_environment`: a fresh `Environment`
whose parent is the builtin dict, into which `__builtins__` (the builtin
dict object) and `__globals__` (the environment itself) are inserted. -/
def makeGlobalEnvironment (st : PyState) : PyState × Value :=
  let r := st.frames.length
  let st1 := pushFrame st ⟨[], .table⟩
  let st2 := modifyFrame st1 r
    (fun fr => ⟨setEntry fr.entries (.str "__builtins__") .table, fr.parent⟩)
  let st3 := modifyFrame st2 r
    (fun fr => ⟨setEntry fr.entries (.str "__globals__") (.env r), fr.parent⟩)
  (st3, .env r)

/-- `ApplyEvalInterpreter.eval(sexpression, env=None)`: when `env` is
omitted the source executes `env = self.make_global_environment` — the
bound method object is assigned *without being called* — and `_eval` then
runs with that method object as its environment. -/
def evalTopA (fuel : Nat) (st : PyState) (sexpr : Value) (envOpt : Option Value) :
    Except PyErr (Value × PyState) :=
  match envOpt with
  | some envv => evalA fuel st envv sexpr
  | Option.none => evalA fuel st .method sexpr

/-- The `self._builtins` table of `ApplyEvalInterpreter.__init__`. -/
def builtinsA : List (Value × Value) :=
  [(.str "#t", .bool true), (.str "#nil", .bool false),
   (.str "set", .builtin .set), (.str "setq", .builtin .setq),
   (.str "cond", .builtin .cond), (.str "lambda", .builtin .lambdaB),
   (.str "car", .builtin .car), (.str "cdr", .builtin .cdr),
   (.str "quote", .builtin .quote), (.str "+", .builtin .add),
   (.str "-", .builtin .sub), (.str "*", .builtin .mul),
   (.str "/", .builtin .div), (.str "equal?", .builtin .equalQ)]

/-- A freshly constructed `ApplyEvalInterpreter` with no environments yet. -/
def stA0 : PyState := ⟨[], builtinsA⟩

/-- The state and environment value produced by
`make_global_environment()` on a fresh interpreter, as in `main`. -/
def gStA : PyState := (makeGlobalEnvironment stA0).1

def gEnvA : Value := (makeGlobalEnvironment stA0).2

/-- The builtins of `LispInterpreter` (nanolisp), dispatched by name: its
`_setq` binds `sexpression[1]` *unevaluated* and returns it; its `_cond`
and the inline lambdas are identical to the apply-eval ones.  `set` and
`lambda` do not occur in `self._globals` of nanolisp, so their cases are
unreachable from `builtinsN`; they are given the apply-eval behaviour for
totality only. -/
def runBuiltinN (E : Evaluator) (st : PyState) (envv : Value) :
    BName → List Value → Except PyErr (Value × PyState)
  | .setq, args => do
      let v ← listIdx args 1
      let k ← listIdx args 0
      let st1 ← envSetItem st envv k v
      .ok (v, st1)
  | .cond, args => condStep E st envv args
  | .car, args => do
      let x ← listIdx args 0
      let v ← pyIndexV x 0
      .ok (v, st)
  | .cdr, args => do
      let x ← listIdx args 0
      let v ← pySlice1 x
      .ok (v, st)
  | .quote, args => do
      let x ← listIdx args 0
      .ok (x, st)
  | .add, args => do
      let v ← pySum args
      .ok (v, st)
  | .sub, args => do
      let v ← pyReduce pySub args
      .ok (v, st)
  | .mul, args => do
      let v ← pyReduce pyMul args
      .ok (v, st)
  | .div, args => do
      let v ← pyReduce pyDiv args
      .ok (v, st)
  | .equalQ, args => do
      let a ← listIdx args 0
      let b ← listIdx args 1
      .ok (.bool (pyEq a b), st)
  | .set, args => do
      let v ← listIdx args 1
      let k ← listIdx args 0
      let st1 ← envSetItem st envv k v
      .ok (v, st1)
  | .lambdaB, args => do
      let ps ← listIdx args 0
      let bd ← listIdx args 1
      .ok (.tuple [.str "lambda", envv, ps, bd], st)

/-- `LispInterpreter._apply(fn, args, context)`.  Branches (1) and (2) as
in apply-eval; in branch (3) the stored definition is the raw list
`['lambda', params, body]` and — per the source comment, *dynamic* rather
than static scoping — the new `Scope`'s parent is the **caller's**
`context`, with `definition[1]` as parameter list and `definition[2]` as
body. -/
def applyStepN (E : Evaluator) (st : PyState) (envv fn : Value)
    (args : List Value) : Except PyErr (Value × PyState) :=
  match fn with
  | .builtin b => runBuiltinN E st envv b args
  | .method => throw .typeError
  | _ => do
      let v ← envGetD st envv fn .none
      if isRoutine v then do
        let v2 ← envGetItem st envv fn
        match v2 with
        | .builtin b => runBuiltinN E st envv b args
        | _ => throw .typeError
      else do
        let defn ← envGetItem st envv fn
        let hd ← pyIndexV defn 0
        if pyEq hd (.str "lambda") then do
          let r := st.frames.length
          let st1 := pushFrame st ⟨[], envv⟩
          let ps ← pyIndexV defn 1
          let elems ← toIter ps
          let d ← dictOf (elems.zip args)
          let st2 := modifyFrame st1 r (fun fr => ⟨d, fr.parent⟩)
          let bd ← pyIndexV defn 2
          E st2 (.env r) bd
        else throw .assertionError

/-- Membership of the head in nanolisp's `self._lazy = ['cond','quote','setq']`
(no `lambda`). -/
def isLazyN (fn : Value) : Bool :=
  pyEq fn (.str "cond") || pyEq fn (.str "quote") || pyEq fn (.str "setq")

/-- One step of `LispInterpreter._eval`, identical in shape to
`ApplyEvalInterpreter._eval`. -/
def evalStepN (E : Evaluator) (st : PyState) (envv sexpr : Value) :
    Except PyErr (Value × PyState) :=
  match sexpr with
  | .list l => do
      let fn ← listIdx l 0
      let args := l.drop 1
      if isLazyN fn then applyStepN E st envv fn args
      else do
        let (vs, st1) ← evalArgsStep E st envv args
        applyStepN E st1 envv fn vs
  | a => do
      let v ← envGetD st envv a a
      .ok (v, st)

/-- `LispInterpreter._eval` with fuel. -/
def evalN : Nat → PyState → Value → Value → Except PyErr (Value × PyState)
  | 0, _, _, _ => throw .outOfFuel
  | n + 1, st, envv, sexpr => evalStepN (evalN n) st envv sexpr

/-- The `self._globals` table of `LispInterpreter.__init__`. -/
def builtinsN : List (Value × Value) :=
  [(.str "#t", .bool true), (.str "#nil", .bool false),
   (.str "setq", .builtin .setq), (.str "cond", .builtin .cond),
   (.str "car", .builtin .car), (.str "cdr", .builtin .cdr),
   (.str "quote", .builtin .quote), (.str "+", .builtin .add),
   (.str "-", .builtin .sub), (.str "*", .builtin .mul),
   (.str "/", .builtin .div), (.str "equal?", .builtin .equalQ)]

/-- The state after nanolisp's `main` builds `context = Scope(l._globals)`:
one fresh empty scope whose parent is the globals table. -/
def stN0 : PyState := ⟨[⟨[], .table⟩], builtinsN⟩

def nEnv : Value := .env 0

/-- Non-list, i.e. what `type(sexpression) != list` selects: the Atom case
of `_eval`. -/
def isAtomV : Value → Bool
  | .list _ => false
  | _ => true

/-- Whether a value is one of the routine objects of a builtin table. -/
def isBuiltinV : Value → Bool
  | .builtin _ => true
  | _ => false

/-- An `Environment`/`Scope` object or the plain builtin dict: the shapes a
chain node can have in any state the interpreters build. -/
def isEnvOrTable : Value → Bool
  | .env _ => true
  | .table => true
  | _ => false

/-- Well-formed environment chain: following `_parent` attributes meets
only environments, the builtin dict, or `None`, within the given fuel. -/
def wfChainGo (st : PyState) : Nat → Value → Bool
  | 0, _ => false
  | f + 1, v =>
    match v with
    | .table => true
    | .none => true
    | .env r => wfChainGo st f (frameAt st r).parent
    | _ => false

/-- `wfChainGo` at the fuel `envGetItem` uses. -/
def wfChainB (st : PyState) (envv : Value) : Bool :=
  wfChainGo st (st.frames.length + 2) envv

/-- Modelled from the spec: "`contains(name) -> bool`: true if `name` is
bound anywhere in the chain" — a name is bound in an environment chain iff
some frame reachable through `_parent` references holds it locally (the
builtin dict counting as the final frame).  Unlike the code's
`__contains__`/`__getitem__`, this spec-side notion does not stop at a
parent whose local dict is empty. -/
def specBoundGo (st : PyState) : Nat → Value → Value → Bool
  | 0, _, _ => false
  | f + 1, v, key =>
    match v with
    | .env r =>
        (findEntry (frameAt st r).entries key).isSome ||
          specBoundGo st f (frameAt st r).parent key
    | .table => (findEntry st.builtins key).isSome
    | _ => false

/-- `specBoundGo` at the fuel `envGetItem` uses. -/
def specBoundInChain (st : PyState) (envv key : Value) : Bool :=
  specBoundGo st (st.frames.length + 2) envv key

mutual

/-- An expression tree as the language defines them: atoms (numbers,
booleans, strings/symbols) and lists of expressions — no embedded host
routine or environment objects. -/
def isExprData : Value → Bool
  | .int _ => true
  | .bool _ => true
  | .str _ => true
  | .list l => isExprDataList l
  | _ => false

def isExprDataList : List Value → Bool
  | [] => true
  | a :: as => isExprData a && isExprDataList as

end

/-- A chain of three `Environment`s: the root binds `x`, its child has an
empty local dict, and the grandchild is the environment under test. -/
def st7 : PyState :=
  ⟨[⟨[(.str "x", .int 42)], .none⟩, ⟨[], .env 0⟩, ⟨[], .env 1⟩], []⟩
/-- Like `st7` but with a non-empty middle frame, so the parent delegation
of C7's first part actually fires. -/
def stW7 : PyState :=
  ⟨[⟨[(.str "x", .int 42)], .none⟩, ⟨[(.str "y", .int 1)], .env 0⟩, ⟨[], .env 1⟩], []⟩
/-- A global environment binding `x = 42`, with two empty call frames
chained below it (as two nested zero-parameter lambda applications create). -/
def st6 : PyState :=
  ⟨[⟨[(.str "__builtins__", .table), (.str "__globals__", .env 0),
      (.str "x", .int 42)], .table⟩,
    ⟨[], .env 0⟩, ⟨[], .env 1⟩], builtinsA⟩
/-- The global environment of `apply-eval` after `(set x (+ 1 2))`:
`x` is bound to the *evaluated* `3`. -/
def st4 : PyState :=
  ⟨[⟨[(.str "__builtins__", .table), (.str "__globals__", .env 0),
      (.str "x", .int 3)], .table⟩], builtinsA⟩
/-- The nanolisp context after `(setq x (+ 1 2))`: `x` is bound to the raw
expression list, not to `3`. -/
def st2c : PyState :=
  ⟨[⟨[(.str "x", .list [.str "+", .int 1, .int 2])], .table⟩], builtinsN⟩
/-- An `apply-eval` store for the C1 witness: the root environment `A`
(index 0) binds `x = 7` and `f` to a closure `(lambda (y) x)` captured in
`A`; the caller environment `B` (index 1) shadows `x = 999` locally. -/
def stC1 : PyState :=
  ⟨[⟨[(.str "x", .int 7),
      (.str "f", .tuple [.str "lambda", .env 0, .list [.str "y"], .str "x"])],
      .table⟩,
    ⟨[(.str "x", .int 999)], .env 0⟩], builtinsA⟩
/-- `stC1` after applying `f` to `1` from `B`: the fresh call frame binds
`y = 1` and has parent `A` (environment 0), not `B`. -/
def stC1x : PyState :=
  ⟨[⟨[(.str "x", .int 7),
      (.str "f", .tuple [.str "lambda", .env 0, .list [.str "y"], .str "x"])],
      .table⟩,
    ⟨[(.str "x", .int 999)], .env 0⟩,
    ⟨[(.str "y", .int 1)], .env 0⟩], builtinsA⟩
/-- The `apply-eval` global environment after
`(setq f (lambda (x y) x))`: `f` is bound to the closure tuple capturing
environment 0. -/
def st3a : PyState :=
  ⟨[⟨[(.str "__builtins__", .table), (.str "__globals__", .env 0),
      (.str "f", .tuple [.str "lambda", .env 0,
        .list [.str "x", .str "y"], .str "x"])], .table⟩], builtinsA⟩

/-- `st3a` after the one-argument call `(f 5)`: the call frame binds only
`x = 5`; the unmatched parameter `y` was silently dropped by `zip`. -/
def st3b : PyState :=
  ⟨[⟨[(.str "__builtins__", .table), (.str "__globals__", .env 0),
      (.str "f", .tuple [.str "lambda", .env 0,
        .list [.str "x", .str "y"], .str "x"])], .table⟩,
    ⟨[(.str "x", .int 5)], .env 0⟩], builtinsA⟩

/-! ## Helper lemmas -/

theorem envGetItem_unfold (st : PyState) (envv key : Value) :
    envGetItem st envv key =
      lookupStep st (lookupGo st (st.frames.length + 1)) envv key := rfl

theorem evalA_succ (n : Nat) (st : PyState) (envv sexpr : Value) :
    evalA (n + 1) st envv sexpr = evalStepA (evalA n) st envv sexpr := rfl

theorem evalN_succ (n : Nat) (st : PyState) (envv sexpr : Value) :
    evalN (n + 1) st envv sexpr = evalStepN (evalN n) st envv sexpr := rfl

mutual

theorem pyEq_refl : ∀ v : Value, pyEq v v = true
  | .int _ => by simp [pyEq]
  | .bool _ => by simp [pyEq]
  | .str _ => by simp [pyEq]
  | .list l => by simp [pyEq]; exact pyEqList_refl l
  | .tuple l => by simp [pyEq]; exact pyEqList_refl l
  | .builtin _ => by simp [pyEq]
  | .table => by simp [pyEq]
  | .env _ => by simp [pyEq]
  | .method => by simp [pyEq]
  | .none => by simp [pyEq]

theorem pyEqList_refl : ∀ l : List Value, pyEqList l l = true
  | [] => rfl
  | a :: as => by
      simp [pyEqList]
      exact ⟨pyEq_refl a, pyEqList_refl as⟩

end

theorem findEntry_setEntry_self :
    ∀ (es : List (Value × Value)) (k v : Value),
      findEntry (setEntry es k v) k = some v
  | [], k, v => by simp [setEntry, findEntry, pyEq_refl]
  | (k0, v0) :: rest, k, v => by
      cases h : pyEq k0 k <;>
        simp [setEntry, findEntry, h, findEntry_setEntry_self rest k v]

/-- `Environment.get` returns any value `__getitem__` finds. -/
theorem envGetD_ok_of_getItem (st : PyState) (envv key d v : Value)
    (h : envGetItem st envv key = .ok v) :
    envGetD st envv key d = .ok v := by
  cases envv <;> simp_all [envGetD, envGetItem_unfold, lookupStep]

/-- If a name is bound nowhere in a well-formed chain (in the spec's sense),
`Environment.__getitem__` raises `KeyError`. -/
theorem lookup_keyError_of_unbound :
    ∀ (f : Nat) (st : PyState) (envv key : Value),
      hashable key = true → isEnvOrTable envv = true →
      wfChainGo st f envv = true → specBoundGo st f envv key = false →
      lookupGo st f envv key = .error .keyError := by
  intro f
  induction f with
  | zero =>
      intro st envv key _ _ hwf _
      simp [wfChainGo] at hwf
  | succ f ih =>
      intro st envv key hk he hwf hsb
      cases envv with
      | env r =>
          simp only [wfChainGo] at hwf
          simp only [specBoundGo, Bool.or_eq_false_iff] at hsb
          obtain ⟨hs1, hs2⟩ := hsb
          cases hfe : findEntry (frameAt st r).entries key with
          | some v => simp [hfe] at hs1
          | none =>
              simp only [lookupGo, lookupStep, hk, if_true, hfe]
              cases ht : truthyV st (frameAt st r).parent with
              | false => rfl
              | true =>
                  simp only [if_true]
                  cases f with
                  | zero => simp [wfChainGo] at hwf
                  | succ f' =>
                      cases hp : (frameAt st r).parent with
                      | env r' =>
                          exact ih st (.env r') key hk rfl (hp ▸ hwf) (hp ▸ hs2)
                      | table =>
                          exact ih st .table key hk rfl (hp ▸ hwf) (hp ▸ hs2)
                      | none => rw [hp] at ht; simp [truthyV] at ht
                      | int a => rw [hp] at hwf; simp [wfChainGo] at hwf
                      | bool a => rw [hp] at hwf; simp [wfChainGo] at hwf
                      | str a => rw [hp] at hwf; simp [wfChainGo] at hwf
                      | list a => rw [hp] at hwf; simp [wfChainGo] at hwf
                      | tuple a => rw [hp] at hwf; simp [wfChainGo] at hwf
                      | builtin a => rw [hp] at hwf; simp [wfChainGo] at hwf
                      | method => rw [hp] at hwf; simp [wfChainGo] at hwf
      | table =>
          simp only [specBoundGo] at hsb
          cases hfe : findEntry st.builtins key with
          | some v => simp [hfe] at hsb
          | none => simp [lookupGo, lookupStep, hk, hfe]; rfl
      | int a => simp [isEnvOrTable] at he
      | bool a => simp [isEnvOrTable] at he
      | str a => simp [isEnvOrTable] at he
      | list a => simp [isEnvOrTable] at he
      | tuple a => simp [isEnvOrTable] at he
      | builtin a => simp [isEnvOrTable] at he
      | method => simp [isEnvOrTable] at he
      | none => simp [isEnvOrTable] at he

@[simp] theorem throw_eq {α : Type} (e : PyErr) :
    (throw e : Except PyErr α) = .error e := rfl

@[simp] theorem exceptBind_err {α β : Type} (e : PyErr)
    (f : α → Except PyErr β) :
    (Except.error e : Except PyErr α) >>= f = .error e := rfl

@[simp] theorem exceptBind_ok {α β : Type} (a : α) (f : α → Except PyErr β) :
    (Except.ok a : Except PyErr α) >>= f = f a := rfl

@[simp] theorem purePy_eq {α : Type} (a : α) :
    (pure a : Except PyErr α) = .ok a := rfl

/-- With the un-invoked `make_global_environment` method as "environment",
`_apply` always dies at `env.get(fn)` for any expression head. -/
theorem applyStepA_method (E : Evaluator) (st : PyState) (fn : Value)
    (args : List Value) (h : isExprData fn = true) :
    applyStepA E st .method fn args = .error .attributeError := by
  cases fn <;> simp_all [applyStepA, envGetD, isExprData]

/-- With the method object as "environment", `_eval` fails on every
expression: atoms die at `env.get(...)`, operand evaluation dies
recursively, and `_apply` dies at `env.get(fn)`. -/
theorem evalA_method_fails :
    ∀ (f : Nat) (st : PyState) (e : Value), isExprData e = true →
      ∃ er, evalA f st .method e = .error er := by
  intro f
  induction f with
  | zero => intro st e _; exact ⟨.outOfFuel, rfl⟩
  | succ f ih =>
      intro st e hed
      cases e with
      | int a => exact ⟨.attributeError, rfl⟩
      | bool a => exact ⟨.attributeError, rfl⟩
      | str a => exact ⟨.attributeError, rfl⟩
      | tuple a => simp [isExprData] at hed
      | builtin a => simp [isExprData] at hed
      | table => simp [isExprData] at hed
      | env a => simp [isExprData] at hed
      | method => simp [isExprData] at hed
      | none => simp [isExprData] at hed
      | list l =>
          cases l with
          | nil => exact ⟨.indexError, rfl⟩
          | cons fn args =>
              simp only [isExprData, isExprDataList, Bool.and_eq_true] at hed
              obtain ⟨hfn, hargs⟩ := hed
              rw [evalA_succ]
              simp only [evalStepA, listIdx, List.get?, exceptBind_ok,
                List.drop_succ_cons, List.drop_zero]
              cases hl : isLazyA fn with
              | true =>
                  simp only [if_true]
                  exact ⟨.attributeError, applyStepA_method _ _ _ _ hfn⟩
              | false =>
                  simp only [Bool.false_eq_true, if_false]
                  cases args with
                  | nil =>
                      simp only [evalArgsStep, exceptBind_ok]
                      exact ⟨.attributeError, applyStepA_method _ _ _ _ hfn⟩
                  | cons a rest =>
                      simp only [isExprData, isExprDataList,
                        Bool.and_eq_true] at hargs
                      obtain ⟨ha, _⟩ := hargs
                      obtain ⟨er, herr⟩ := ih st a ha
                      refine ⟨er, ?_⟩
                      simp [evalArgsStep, herr]

/-- C10: when `eval` is called with the environment omitted, the documented
fallback never takes effect: `env = self.make_global_environment` assigns
the factory method without invoking it, the "environment" is the method
object, and evaluating any expression (atom or list) fails instead of
returning the value the expression would have in a fresh global
environment. -/
theorem C10_env_omitted_always_fails (fuel : Nat) (st : PyState) (e : Value)
    (hed : isExprData e = true) :
    ∃ er, evalTopA fuel st e Option.none = .error er :=
  evalA_method_fails fuel st e hed

/-- Witness for C10 at the concrete atom `5` on a fresh interpreter. -/
theorem C10_env_omitted_always_fails_witness :
    isExprData (.int 5) = true ∧
      ∃ er, evalTopA 3 stA0 (.int 5) Option.none = .error er :=
  ⟨rfl, C10_env_omitted_always_fails 3 stA0 (.int 5) rfl⟩


/-- C7 fails as stated: `x` is bound in the parent `p` (environment 1, via
its own parent chain) and not in `e`'s local frame (environment 2), and
`p.lookup(x)` is `42` — but `e.lookup(x)` raises `KeyError` instead of
returning `42`, because `p`'s local dict is empty, hence falsy, and
`elif self._parent:` treats it as an absent parent. -/
theorem C7_counterexample :
    specBoundInChain st7 (.env 1) (.str "x") = true ∧
    findEntry (frameAt st7 2).entries (.str "x") = Option.none ∧
    envGetItem st7 (.env 1) (.str "x") = .ok (.int 42) ∧
    envGetItem st7 (.env 2) (.str "x") = .error .keyError :=
  ⟨rfl, rfl, rfl, rfl⟩

/-- C7 (amended): if `n` is not bound in `e`'s local frame and `e`'s parent
`p` is an environment whose local dict is *non-empty* (a parent with an
empty local dict is falsy and treated as absent), then `e.lookup(n)`
returns whatever the lookup walk from `p` returns; and `e.bind(n, v)`
writes only to `e`'s local frame: afterwards `e.lookup(n) == v` and every
frame other than `e` — in particular the parent and all its bindings — is
unchanged. -/
theorem C7_parent_lookup_and_local_bind (st : PyState) (er pr : Nat)
    (n vp v : Value) (hk : hashable n = true) :
    ((frameAt st er).parent = .env pr →
      findEntry (frameAt st er).entries n = Option.none →
      truthyV st (.env pr) = true →
      lookupGo st (st.frames.length + 1) (.env pr) n = .ok vp →
      envGetItem st (.env er) n = .ok vp) ∧
    envSetItem st (.env er) n v =
      .ok (modifyFrame st er (fun fr => ⟨setEntry fr.entries n v, fr.parent⟩)) ∧
    (er < st.frames.length →
      envGetItem (modifyFrame st er (fun fr => ⟨setEntry fr.entries n v, fr.parent⟩))
        (.env er) n = .ok v) ∧
    (∀ j, j ≠ er →
      frameAt (modifyFrame st er (fun fr => ⟨setEntry fr.entries n v, fr.parent⟩)) j =
        frameAt st j) := by
  refine ⟨?_, ?_, ?_, ?_⟩
  · intro hpar hloc htr hlook
    rw [envGetItem_unfold]
    simp [lookupStep, hk, hloc, hpar, htr, hlook]
  · simp [envSetItem, hk]
  · intro hlt
    rw [envGetItem_unfold]
    have hfr : frameAt
        (modifyFrame st er (fun fr => ⟨setEntry fr.entries n v, fr.parent⟩)) er =
        ⟨setEntry (frameAt st er).entries n v, (frameAt st er).parent⟩ := by
      simp [frameAt, modifyFrame, List.getD, List.getElem?_set_eq_of_lt _ hlt]
    simp [lookupStep, hk, hfr, findEntry_setEntry_self]
  · intro j hj
    simp [frameAt, modifyFrame, List.getD,
      List.getElem?_set_ne (fun h => hj h.symm)]


/-- Witness for the amended C7 on a concrete three-frame chain. -/
theorem C7_parent_lookup_and_local_bind_witness :
    envGetItem stW7 (.env 2) (.str "x") = .ok (.int 42) ∧
    envSetItem stW7 (.env 2) (.str "x") (.int 5) =
      .ok (modifyFrame stW7 2
        (fun fr => ⟨setEntry fr.entries (.str "x") (.int 5), fr.parent⟩)) ∧
    envGetItem (modifyFrame stW7 2
        (fun fr => ⟨setEntry fr.entries (.str "x") (.int 5), fr.parent⟩))
      (.env 2) (.str "x") = .ok (.int 5) ∧
    frameAt (modifyFrame stW7 2
        (fun fr => ⟨setEntry fr.entries (.str "x") (.int 5), fr.parent⟩)) 1 =
      frameAt stW7 1 := by
  have h := C7_parent_lookup_and_local_bind stW7 2 1 (.str "x") (.int 42)
    (.int 5) rfl
  exact ⟨h.1 rfl rfl rfl rfl, h.2.1, h.2.2.1 (by decide),
    h.2.2.2 1 (by decide)⟩


/-- C6 fails as stated: the atom `x` *is* bound in the environment chain
(the global frame holds `x = 42`), yet `eval` returns the atom itself,
because the walk from environment 2 stops at environment 1, whose empty
local dict makes it falsy in `elif self._parent:`. -/
theorem C6_counterexample :
    isAtomV (.str "x") = true ∧
    specBoundInChain st6 (.env 2) (.str "x") = true ∧
    evalA 1 st6 (.env 2) (.str "x") = .ok (.str "x", st6) ∧
    Value.str "x" ≠ Value.int 42 :=
  ⟨rfl, rfl, rfl, by simp⟩

/-- C6 (amended): for an atom `a`, `eval(a, env)` is `env.get(a, a)`:
it returns the value found by the `__getitem__` walk when that walk finds
one — the walk stops at any parent whose local dict is empty, so a binding
hidden behind an empty intermediate frame is not found — and it returns the
atom itself unchanged when the walk raises `KeyError`; in particular,
whenever `a` is bound nowhere in the chain (spec sense), `eval(a, env) = a`. -/
theorem C6_atom_eval (n : Nat) (st : PyState) (envv a v : Value)
    (hat : isAtomV a = true) (hk : hashable a = true)
    (he : isEnvOrTable envv = true) (hwf : wfChainB st envv = true) :
    (envGetItem st envv a = .ok v → evalA (n + 1) st envv a = .ok (v, st)) ∧
    (specBoundInChain st envv a = false →
      evalA (n + 1) st envv a = .ok (a, st)) := by
  constructor
  · intro h
    rw [evalA_succ]
    cases a <;> simp_all [evalStepA, envGetD_ok_of_getItem st envv _ _ v h,
      isAtomV]
  · intro hnb
    have hke : envGetItem st envv a = .error .keyError :=
      lookup_keyError_of_unbound (st.frames.length + 2) st envv a hk he hwf hnb
    have hgd : envGetD st envv a a = .ok a := by
      cases envv <;> simp_all [envGetD, isEnvOrTable]
    rw [evalA_succ]
    cases a <;> simp_all [evalStepA, isAtomV]

/-- Witness for the amended C6: `#t` resolves through the chain to `True`,
and the unbound atom `zz` evaluates to itself, in the fresh global
environment of `apply-eval`. -/
theorem C6_atom_eval_witness :
    evalA 1 gStA gEnvA (.str "#t") = .ok (.bool true, gStA) ∧
    evalA 1 gStA gEnvA (.str "zz") = .ok (.str "zz", gStA) :=
  ⟨(C6_atom_eval 0 gStA gEnvA (.str "#t") (.bool true) rfl rfl rfl rfl).1 rfl,
   (C6_atom_eval 0 gStA gEnvA (.str "zz") (.str "zz") rfl rfl rfl rfl).2 rfl⟩

/-- When the head resolves through the environment chain to a routine of
the builtin table, `ApplyEvalInterpreter._apply` calls it with the operands
and the current environment. -/
theorem applyStepA_resolved (E : Evaluator) (st : PyState) (envv fn : Value)
    (b : BName) (args : List Value) (hb : isBuiltinV fn = false)
    (hm : fn ≠ .method)
    (hc : envGetItem st envv fn = .ok (.builtin b)) :
    applyStepA E st envv fn args = runBuiltinA E st envv b args := by
  have hgd := envGetD_ok_of_getItem st envv fn .none _ hc
  cases fn <;> simp_all [applyStepA, isBuiltinV, isRoutine]

/-- Same resolution step for `LispInterpreter._apply`. -/
theorem applyStepN_resolved (E : Evaluator) (st : PyState) (envv fn : Value)
    (b : BName) (args : List Value) (hb : isBuiltinV fn = false)
    (hm : fn ≠ .method)
    (hc : envGetItem st envv fn = .ok (.builtin b)) :
    applyStepN E st envv fn args = runBuiltinN E st envv b args := by
  have hgd := envGetD_ok_of_getItem st envv fn .none _ hc
  cases fn <;> simp_all [applyStepN, isBuiltinV, isRoutine]

/-- C5: `cond` is lazy, and `_cond` evaluates the condition expressions in
order in the current environment.  (a) if the first pair's condition
evaluates truthy, the whole `cond` is exactly the evaluation of that
pair's result expression — for *every* tail of later pairs, which are
therefore never evaluated; (b) if it evaluates falsy, the whole `cond` is
the `cond` of the remaining pairs (conditions tried in order); (c) a
`cond` with no pairs returns the language's false value `False`. -/
theorem C5_cond_first_truthy (n : Nat) (st st1 : PyState)
    (envv c r cv : Value) (rest : List Value)
    (hc : envGetItem st envv (.str "cond") = .ok (.builtin .cond))
    (he : evalA n st envv c = .ok (cv, st1)) :
    (truthyV st1 cv = true →
      evalA (n + 1) st envv (.list (.str "cond" :: .list [c, r] :: rest)) =
        evalA n st1 envv r) ∧
    (truthyV st1 cv = false →
      envGetItem st1 envv (.str "cond") = .ok (.builtin .cond) →
      evalA (n + 1) st envv (.list (.str "cond" :: .list [c, r] :: rest)) =
        evalA (n + 1) st1 envv (.list (.str "cond" :: rest))) ∧
    evalA (n + 1) st envv (.list [.str "cond"]) = .ok (.bool false, st) := by
  have hlz : isLazyA (.str "cond") = true := rfl
  refine ⟨?_, ?_, ?_⟩
  · intro ht
    rw [evalA_succ]
    simp only [evalStepA, listIdx, List.get?, exceptBind_ok,
      List.drop_succ_cons, List.drop_zero, hlz, if_true]
    rw [applyStepA_resolved _ _ _ (.str "cond") .cond _ rfl (by simp) hc]
    simp [runBuiltinA, condStep, unpack2, toIter, he, ht]
  · intro ht hc1
    rw [evalA_succ, evalA_succ]
    simp only [evalStepA, listIdx, List.get?, exceptBind_ok,
      List.drop_succ_cons, List.drop_zero, hlz, if_true]
    rw [applyStepA_resolved _ _ _ (.str "cond") .cond _ rfl (by simp) hc,
      applyStepA_resolved _ _ _ (.str "cond") .cond _ rfl (by simp) hc1]
    simp [runBuiltinA, condStep, unpack2, toIter, he, ht]
  · rw [evalA_succ]
    simp only [evalStepA, listIdx, List.get?, exceptBind_ok,
      List.drop_succ_cons, List.drop_zero, hlz, if_true]
    rw [applyStepA_resolved _ _ _ (.str "cond") .cond _ rfl (by simp) hc]
    simp [runBuiltinA, condStep]

/-- Witness for C5: `(cond (1 7) (0 9))` short-circuits to evaluating `7`
(and the skipped pair is irrelevant), and `(cond)` returns `False`. -/
theorem C5_cond_first_truthy_witness :
    (evalA 2 gStA gEnvA
        (.list [.str "cond", .list [.int 1, .int 7], .list [.int 0, .int 9]]) =
      evalA 1 gStA gEnvA (.int 7)) ∧
    evalA 2 gStA gEnvA (.list [.str "cond"]) = .ok (.bool false, gStA) := by
  have h := C5_cond_first_truthy 1 gStA gStA gEnvA (.int 1) (.int 7) (.int 1)
    [.list [.int 0, .int 9]] rfl rfl
  exact ⟨h.1 rfl, h.2.2⟩

/-- C8 fails as stated: `(*)` with zero operands does not return `1` — it
raises `TypeError`, because `reduce(operator.mul, [])` has no initializer. -/
theorem C8_counterexample :
    evalA 1 gStA gEnvA (.list [.str "*"]) = .error .typeError ∧
    (Except.error .typeError : Except PyErr (Value × PyState)) ≠
      .ok (.int 1, gStA) :=
  ⟨rfl, by simp⟩

/-- C8 (amended): `+` folds addition over its evaluated operands starting
from the additive identity, so `(+)` of zero operands is `0`; `*` folds
multiplication via `reduce` *without* an initializer, so it requires at
least one operand — `(*)` of zero operands raises `TypeError`, and with
one or more operands it left-folds from the first. -/
theorem C8_fold_identities (n : Nat) (st : PyState) (envv : Value)
    (hadd : envGetItem st envv (.str "+") = .ok (.builtin .add))
    (hmul : envGetItem st envv (.str "*") = .ok (.builtin .mul)) :
    evalA (n + 1) st envv (.list [.str "+"]) = .ok (.int 0, st) ∧
    evalA (n + 1) st envv (.list [.str "*"]) = .error .typeError ∧
    (∀ (E : Evaluator) (v : Value) (vs : List Value),
      runBuiltinA E st envv .mul (v :: vs) =
        (do let w ← vs.foldlM pyMul v; Except.ok (w, st))) := by
  have h1 : isLazyA (.str "+") = false := rfl
  have h2 : isLazyA (.str "*") = false := rfl
  refine ⟨?_, ?_, ?_⟩
  · rw [evalA_succ]
    simp only [evalStepA, listIdx, List.get?, exceptBind_ok,
      List.drop_succ_cons, List.drop_zero, h1, Bool.false_eq_true, if_false,
      evalArgsStep]
    rw [applyStepA_resolved _ _ _ (.str "+") .add _ rfl (by simp) hadd]
    simp [runBuiltinA, pySum]
  · rw [evalA_succ]
    simp only [evalStepA, listIdx, List.get?, exceptBind_ok,
      List.drop_succ_cons, List.drop_zero, h2, Bool.false_eq_true, if_false,
      evalArgsStep]
    rw [applyStepA_resolved _ _ _ (.str "*") .mul _ rfl (by simp) hmul]
    simp [runBuiltinA, pyReduce]
  · intro E v vs
    simp [runBuiltinA, pyReduce]

/-- Witness for the amended C8 in the fresh global environment. -/
theorem C8_fold_identities_witness :
    evalA 1 gStA gEnvA (.list [.str "+"]) = .ok (.int 0, gStA) ∧
    evalA 1 gStA gEnvA (.list [.str "*"]) = .error .typeError ∧
    runBuiltinA (evalA 0) gStA gEnvA .mul [.int 2, .int 3] =
      .ok (.int 6, gStA) := by
  have h := C8_fold_identities 0 gStA gEnvA rfl rfl
  exact ⟨h.1, h.2.1, h.2.2 (evalA 0) (.int 2) [.int 3]⟩

/-- C9 fails as stated: `cdr` of the empty list does not raise — Python
slicing `[][1:]` yields `[]` — and `car`/`cdr` of a (non-empty) string do
not raise either, since strings are subscriptable: `(car 'abc')` is `'a'`. -/
theorem C9_counterexample :
    evalA 3 gStA gEnvA (.list [.str "cdr", .list [.str "quote", .list []]]) =
      .ok (.list [], gStA) ∧
    evalA 3 gStA gEnvA (.list [.str "car", .list [.str "quote", .str "abc"]]) =
      .ok (.str "a", gStA) :=
  ⟨rfl, rfl⟩

/-- C9 (amended): for a single evaluated operand `x`: `car` returns
`x[0]` — the first element of a non-empty list (or the first character of
a non-empty string), `IndexError` on an empty list, and `TypeError` on a
non-subscriptable value such as a number;  `cdr` returns the slice `x[1:]`,
which never fails on a list — `cdr` of the empty list is `[]`, and of a
one-element list is `[]` — and raises `TypeError` only on non-sliceable
values such as numbers. -/
theorem C9_car_cdr_shapes (E : Evaluator) (st : PyState) (envv h : Value)
    (t : List Value) (k : Int) (c : Char) (s : String) :
    runBuiltinA E st envv .car [.list (h :: t)] = .ok (h, st) ∧
    runBuiltinA E st envv .car [.list []] = .error .indexError ∧
    runBuiltinA E st envv .car [.int k] = .error .typeError ∧
    runBuiltinA E st envv .car [.str (String.mk (c :: s.data))] =
      .ok (.str c.toString, st) ∧
    runBuiltinA E st envv .cdr [.list (h :: t)] = .ok (.list t, st) ∧
    runBuiltinA E st envv .cdr [.list []] = .ok (.list [], st) ∧
    runBuiltinA E st envv .cdr [.list [h]] = .ok (.list [], st) ∧
    runBuiltinA E st envv .cdr [.int k] = .error .typeError :=
  ⟨rfl, rfl, rfl, rfl, rfl, rfl, rfl, rfl⟩


/-- C4 fails as stated: `'set'` is not in `self._lazy`, so its operands are
pre-evaluated like any strict primitive; `(set x (+ 1 2))` binds `x` to the
computed `3` and returns `3`, not the unevaluated expression `(+ 1 2)`. -/
theorem C4_counterexample :
    evalA 3 gStA gEnvA
        (.list [.str "set", .str "x", .list [.str "+", .int 1, .int 2]]) =
      .ok (.int 3, st4) ∧
    envGetItem st4 gEnvA (.str "x") = .ok (.int 3) ∧
    (Value.int 3) ≠ .list [.str "+", .int 1, .int 2] :=
  ⟨rfl, rfl, by simp⟩

/-- C4 (amended): `set` is a *strict* form — `'set'` is absent from
`self._lazy`, so both operands are evaluated before `_set` runs; `_set`
then binds the evaluated value under the evaluated name expression in the
current environment and returns the evaluated value. -/
theorem C4_set_is_strict (n : Nat) (st st1 st2 : PyState)
    (envv nmE vE nv vv : Value)
    (h1 : evalA n st envv nmE = .ok (nv, st1))
    (h2 : evalA n st1 envv vE = .ok (vv, st2))
    (hset : envGetItem st2 envv (.str "set") = .ok (.builtin .set)) :
    isLazyA (.str "set") = false ∧
    evalA (n + 1) st envv (.list [.str "set", nmE, vE]) =
      ((envSetItem st2 envv nv vv) >>= fun stf => Except.ok (vv, stf)) := by
  refine ⟨rfl, ?_⟩
  rw [evalA_succ]
  simp only [evalStepA, listIdx, List.get?, exceptBind_ok,
    List.drop_succ_cons, List.drop_zero]
  have hlz : isLazyA (.str "set") = false := rfl
  simp only [hlz, Bool.false_eq_true, if_false, evalArgsStep, h1, h2,
    exceptBind_ok]
  rw [applyStepA_resolved _ _ _ (.str "set") .set _ rfl (by simp) hset]
  simp [runBuiltinA, listIdx]

/-- Witness for the amended C4: the counterexample expression, via the
theorem. -/
theorem C4_set_is_strict_witness :
    evalA 3 gStA gEnvA
        (.list [.str "set", .str "x", .list [.str "+", .int 1, .int 2]]) =
      ((envSetItem gStA gEnvA (.str "x") (.int 3)) >>=
        fun stf => Except.ok (Value.int 3, stf)) :=
  (C4_set_is_strict 2 gStA gStA gStA gEnvA (.str "x")
    (.list [.str "+", .int 1, .int 2]) (.str "x") (.int 3) rfl rfl rfl).2


/-- C2 fails as stated for `LispInterpreter._setq` (nanolisp), one of its
two cited implementations: nanolisp's `setq` binds the *unevaluated*
second operand, so after `(setq x (+ 1 2))` the binding of `x` is the list
`(+ 1 2)`, not the evaluated result `3`. -/
theorem C2_counterexample :
    evalN 2 stN0 nEnv
        (.list [.str "setq", .str "x", .list [.str "+", .int 1, .int 2]]) =
      .ok (.list [.str "+", .int 1, .int 2], st2c) ∧
    envGetItem st2c nEnv (.str "x") = .ok (.list [.str "+", .int 1, .int 2]) ∧
    (Value.list [.str "+", .int 1, .int 2]) ≠ .int 3 :=
  ⟨rfl, rfl, by simp⟩

/-- C2 (amended): in `ApplyEvalInterpreter` (apply-eval), `setq` evaluates
its second operand in the current environment, binds the first operand to
the evaluated result, and returns the unevaluated second operand; in
`LispInterpreter` (nanolisp), `setq` binds the first operand to the
*unevaluated* second operand and returns that unevaluated operand. -/
theorem C2_setq_variants :
    (∀ (n : Nat) (st st1 : PyState) (envv nm ex v : Value),
      envGetItem st envv (.str "setq") = .ok (.builtin .setq) →
      evalA n st envv ex = .ok (v, st1) →
      evalA (n + 1) st envv (.list [.str "setq", nm, ex]) =
        ((envSetItem st1 envv nm v) >>= fun stf => Except.ok (ex, stf))) ∧
    (∀ (n : Nat) (st : PyState) (envv nm ex : Value),
      envGetItem st envv (.str "setq") = .ok (.builtin .setq) →
      evalN (n + 1) st envv (.list [.str "setq", nm, ex]) =
        ((envSetItem st envv nm ex) >>= fun stf => Except.ok (ex, stf))) := by
  constructor
  · intro n st st1 envv nm ex v hset he
    rw [evalA_succ]
    simp only [evalStepA, listIdx, List.get?, exceptBind_ok,
      List.drop_succ_cons, List.drop_zero]
    have hlz : isLazyA (.str "setq") = true := rfl
    simp only [hlz, if_true]
    rw [applyStepA_resolved _ _ _ (.str "setq") .setq _ rfl (by simp) hset]
    simp [runBuiltinA, listIdx, he]
  · intro n st envv nm ex hset
    rw [evalN_succ]
    simp only [evalStepN, listIdx, List.get?, exceptBind_ok,
      List.drop_succ_cons, List.drop_zero]
    have hlz : isLazyN (.str "setq") = true := rfl
    simp only [hlz, if_true]
    rw [applyStepN_resolved _ _ _ (.str "setq") .setq _ rfl (by simp) hset]
    simp [runBuiltinN, listIdx]

/-- Witness for the amended C2, on the counterexample expression in both
interpreters. -/
theorem C2_setq_variants_witness :
    evalA 3 gStA gEnvA
        (.list [.str "setq", .str "y", .list [.str "+", .int 1, .int 2]]) =
      ((envSetItem gStA gEnvA (.str "y") (.int 3)) >>=
        fun stf => Except.ok (Value.list [.str "+", .int 1, .int 2], stf)) ∧
    evalN 1 stN0 nEnv
        (.list [.str "setq", .str "x", .list [.str "+", .int 1, .int 2]]) =
      ((envSetItem stN0 nEnv (.str "x") (.list [.str "+", .int 1, .int 2])) >>=
        fun stf => Except.ok (Value.list [.str "+", .int 1, .int 2], stf)) :=
  ⟨C2_setq_variants.1 2 gStA gStA gEnvA (.str "y")
      (.list [.str "+", .int 1, .int 2]) (.int 3) rfl rfl,
   C2_setq_variants.2 0 stN0 nEnv (.str "x")
      (.list [.str "+", .int 1, .int 2]) rfl⟩

/-- The lambda-application branch of `ApplyEvalInterpreter._apply`: when
the head resolves (via `env[fn]`) to a closure tuple
`('lambda', A, ps, bd)` and not to a routine, a new `Environment` with
parent `A` is created at the fresh store index `st.frames.length`, filled
with `dict(zip(ps, args))`, and the body `bd` is evaluated there. -/
theorem applyStepA_closure (E : Evaluator) (st : PyState)
    (envv fn A ps bd : Value) (args : List Value)
    (hb : isBuiltinV fn = false) (hm : fn ≠ .method)
    (hc : envGetItem st envv fn = .ok (.tuple [.str "lambda", A, ps, bd])) :
    applyStepA E st envv fn args =
      (do
        let elems ← toIter ps
        let d ← dictOf (elems.zip args)
        E (modifyFrame (pushFrame st ⟨[], A⟩) st.frames.length
            (fun fr => ⟨d, fr.parent⟩)) (.env st.frames.length) bd) := by
  have hgd := envGetD_ok_of_getItem st envv fn .none _ hc
  have hpe : pyEq (.str "lambda") (.str "lambda") = true := rfl
  cases fn
  case builtin b => simp [isBuiltinV] at hb
  case method => exact absurd rfl hm
  all_goals
    simp only [applyStepA, hgd, exceptBind_ok, isRoutine, Bool.false_eq_true,
      if_false, hc, pyIndexV, List.get?, hpe, if_true]

/-- The corresponding fresh call frame: it sits at the previously unused
index `st.frames.length`, holds exactly the zipped parameter bindings `d`,
and its parent is the captured environment `A` — the caller's environment
appears nowhere in it. -/
theorem callFrame_parent (st : PyState) (A : Value) (d : List (Value × Value)) :
    frameAt (modifyFrame (pushFrame st ⟨[], A⟩) st.frames.length
        (fun fr => ⟨d, fr.parent⟩)) st.frames.length = ⟨d, A⟩ := by
  have h1 : (pushFrame st ⟨[], A⟩).frames[st.frames.length]?.getD
      ⟨[], Value.none⟩ = ⟨[], A⟩ := by
    simp [pushFrame, List.getElem?_concat_length]
  have hlt : st.frames.length < (pushFrame st ⟨[], A⟩).frames.length := by
    simp [pushFrame]
  simp [frameAt, modifyFrame, List.getD, h1,
    List.getElem?_set_eq_of_lt _ hlt]

/-- C1: lexical scoping of closures in `apply-eval`.  (a) evaluating a
`lambda` form in environment `A` yields the closure tuple
`('lambda', A, params, body)` capturing `A`; (b) applying a name that
resolves (from any caller environment `B`) to such a closure evaluates the
body in a frame at the fresh store index `st.frames.length`, built from the
closure's captured data only; (c) that call frame holds exactly the
parameter bindings and its parent is `A` — the caller's environment `B`
appears nowhere in it, so the body's free variables resolve through `A`,
never through `B`; (d) in nanolisp no closure is ever created by
evaluating a `lambda` form: with `lambda` unbound in the chain, evaluating
a `lambda` form raises `KeyError`, so the claim is vacuous there. -/
theorem C1_closure_lexical_scope :
    (∀ (n : Nat) (st : PyState) (envA ps bd : Value),
      envGetItem st envA (.str "lambda") = .ok (.builtin .lambdaB) →
      evalA (n + 1) st envA (.list [.str "lambda", ps, bd]) =
        .ok (.tuple [.str "lambda", envA, ps, bd], st)) ∧
    (∀ (E : Evaluator) (st : PyState) (envB f A ps bd : Value)
        (args : List Value),
      isBuiltinV f = false → f ≠ .method →
      envGetItem st envB f = .ok (.tuple [.str "lambda", A, ps, bd]) →
      applyStepA E st envB f args =
        (do
          let elems ← toIter ps
          let d ← dictOf (elems.zip args)
          E (modifyFrame (pushFrame st ⟨[], A⟩) st.frames.length
              (fun fr => ⟨d, fr.parent⟩)) (.env st.frames.length) bd)) ∧
    (∀ (st : PyState) (A : Value) (d : List (Value × Value)),
      frameAt (modifyFrame (pushFrame st ⟨[], A⟩) st.frames.length
          (fun fr => ⟨d, fr.parent⟩)) st.frames.length = ⟨d, A⟩) ∧
    (∀ (n : Nat) (st st1 : PyState) (envv ps bd : Value) (vs : List Value),
      evalArgsStep (evalN n) st envv [ps, bd] = .ok (vs, st1) →
      envGetItem st1 envv (.str "lambda") = .error .keyError →
      evalN (n + 1) st envv (.list [.str "lambda", ps, bd]) =
        .error .keyError) := by
  refine ⟨?_, ?_, ?_, ?_⟩
  · intro n st envA ps bd hl
    rw [evalA_succ]
    have hlz : isLazyA (.str "lambda") = true := rfl
    simp only [evalStepA, listIdx, List.get?, exceptBind_ok,
      List.drop_succ_cons, List.drop_zero, hlz, if_true]
    rw [applyStepA_resolved _ _ _ (.str "lambda") .lambdaB _ rfl (by simp) hl]
    simp [runBuiltinA, listIdx]
  · intro E st envB f A ps bd args hb hm hc
    exact applyStepA_closure E st envB f A ps bd args hb hm hc
  · intro st A d
    exact callFrame_parent st A d
  · intro n st st1 envv ps bd vs hargs hkey
    rw [evalN_succ]
    have hlz : isLazyN (.str "lambda") = false := rfl
    simp only [evalStepN, listIdx, List.get?, exceptBind_ok,
      List.drop_succ_cons, List.drop_zero, hlz, Bool.false_eq_true, if_false,
      hargs]
    cases envv
    case env r =>
        simp only [applyStepN, envGetD, hkey, isRoutine, Bool.false_eq_true,
          if_false, exceptBind_ok, exceptBind_err]
    case table =>
        simp only [applyStepN, envGetD, hkey, isRoutine, Bool.false_eq_true,
          if_false, exceptBind_ok, exceptBind_err]
    all_goals (rw [envGetItem_unfold] at hkey; simp [lookupStep] at hkey)



/-- Witness for C1: the closure is created capturing the global
environment; applied from `B` (which shadows `x` with `999`) it still
returns `7`, the binding of `x` in the captured environment `A`. -/
theorem C1_closure_lexical_scope_witness :
    evalA 1 gStA gEnvA (.list [.str "lambda", .list [.str "y"], .str "x"]) =
      .ok (.tuple [.str "lambda", gEnvA, .list [.str "y"], .str "x"], gStA) ∧
    applyStepA (evalA 1) stC1 (.env 1) (.str "f") [.int 1] =
      .ok (.int 7, stC1x) ∧
    evalN 2 stN0 nEnv (.list [.str "lambda", .str "y", .str "x"]) =
      .error .keyError :=
  ⟨C1_closure_lexical_scope.1 0 gStA gEnvA (.list [.str "y"]) (.str "x") rfl,
   (C1_closure_lexical_scope.2.1 (evalA 1) stC1 (.env 1) (.str "f") (.env 0)
      (.list [.str "y"]) (.str "x") [.int 1] rfl (by simp) rfl).trans rfl,
   C1_closure_lexical_scope.2.2.2 1 stN0 stN0 nEnv (.str "y") (.str "x")
      [.str "y", .str "x"] rfl rfl⟩

/-- C3 fails as stated: applying a closure to the wrong number of
arguments raises nothing.  After `(setq f (lambda (x y) x))`, the
one-argument call `(f 5)` succeeds with value `5`: `dict(zip(params,args))`
silently drops the unmatched parameter `y` and the body is evaluated with
`y` unbound. -/
theorem C3_counterexample :
    evalA 9 gStA gEnvA
        (.list [.str "setq", .str "f",
          .list [.str "lambda", .list [.str "x", .str "y"], .str "x"]]) =
      .ok (.list [.str "lambda", .list [.str "x", .str "y"], .str "x"],
        st3a) ∧
    evalA 9 st3a gEnvA (.list [.str "f", .int 5]) = .ok (.int 5, st3b) :=
  ⟨rfl, rfl⟩

/-- C3 (amended): applying a closure never checks arity — the parameters
are bound positionally via `dict(zip(params, args))`, which truncates to
the shorter of the two sequences: extra arguments are dropped, unmatched
parameters are left unbound, and the body is evaluated regardless; no
`ArityMismatch` failure exists. -/
theorem C3_arity_zip_truncation :
    (∀ (E : Evaluator) (st : PyState) (envB f A bd : Value)
        (psl args : List Value),
      isBuiltinV f = false → f ≠ .method →
      envGetItem st envB f = .ok (.tuple [.str "lambda", A, .list psl, bd]) →
      psl.length ≠ args.length →
      applyStepA E st envB f args =
        (do
          let d ← dictOf (psl.zip args)
          E (modifyFrame (pushFrame st ⟨[], A⟩) st.frames.length
              (fun fr => ⟨d, fr.parent⟩)) (.env st.frames.length) bd)) ∧
    (∀ (psl args : List Value),
      (psl.zip args).length = min psl.length args.length) := by
  constructor
  · intro E st envB f A bd psl args hb hm hc _
    rw [applyStepA_closure E st envB f A (.list psl) bd args hb hm hc]
    simp [toIter]
  · intro psl args
    exact List.length_zip psl args

/-- Witness for the amended C3: the two-parameter closure of
`C3_counterexample` applied to one argument binds only `x` and returns
`5`. -/
theorem C3_arity_zip_truncation_witness :
    applyStepA (evalA 2) st3a gEnvA (.str "f") [.int 5] =
      .ok (.int 5, st3b) ∧
    ([Value.str "x", Value.str "y"].zip [Value.int 5]).length = 1 :=
  ⟨(C3_arity_zip_truncation.1 (evalA 2) st3a gEnvA (.str "f") (.env 0)
      (.str "x") [.str "x", .str "y"] [.int 5] rfl (by simp) rfl
      (by decide)).trans rfl,
   (C3_arity_zip_truncation.2 [.str "x", .str "y"] [.int 5]).trans rfl⟩

end MiniLisp
